import Mathlib

/-!
Shallow embedding of the core of `teleman` (telegram-marketplace server):
the Account Rotator (`server/core/account_rotator.py`) and the Bulk Action
Scheduler (`server/scheduling/bulk_actions.py`).

Modelling conventions:
- Python floats are modelled as exact rationals (`ℚ`); every concrete input
  used in a theorem below is chosen so that the float computation in the
  source is exact and agrees with the rational one.
- Wall-clock time (`time.time()`, `datetime.now(tz)`) is passed explicitly:
  `now : ℚ` is an epoch-second timestamp for the rotator, and `nowMin : ℕ`
  is the current local time in the target timezone, in minutes, for the
  scheduler (the source only ever reads the local hour-of-day and adds
  minute/hour offsets).
- Python exceptions that the embedded code can actually raise
  (`ZeroDivisionError` from `//` and `/`, pytz's `UnknownTimeZoneError` from
  `pytz.timezone(...)`) are modelled with `Except`.
- Python `list.sort(key=..., reverse=True)` is stable, so taking element
  `[0]` of the sorted list yields the *first* element of the original list
  attaining the maximal key; `firstMaxBy` below computes exactly that.
-/

namespace Teleman

/-- Errors raised (or named) around the scheduler.  `zeroDivisionError` is
the Python `ZeroDivisionError` actually raised by the source;
`unknownTimeZoneError` is pytz's `UnknownTimeZoneError` raised by
`pytz.timezone(...)` on a name outside the tz database; `noCapacity` is the
error named by the specification's taxonomy, modelled here only so that the
two can be compared — the source never raises it. -/
inductive PyError where
  | zeroDivisionError
  | unknownTimeZoneError
  | noCapacity
  deriving DecidableEq, Repr

/-- The account record built by `AccountRotator.add_account`
(`account_rotator.py`, lines 12-29). -/
structure Account where
  phone : String
  session_path : String
  proxy : Option String
  status : String
  success_rate : ℚ
  age : ℚ
  activity : ℚ
  last_used : Option ℚ
  total_actions : ℕ
  successful_actions : ℕ
  banned_count : ℕ
  rate_limit_count : ℕ
  deriving DecidableEq, Repr

/-- Embedding of `add_account`: appends a fresh LIVE account with the default fitness
values of the source (success_rate 1.0, age 30, activity 0.8). -/
def add_account (accounts : List Account) (phone session_path : String)
    (proxy : Option String) : List Account :=
  accounts ++ [{ phone := phone, session_path := session_path, proxy := proxy,
                 status := "LIVE", success_rate := 1, age := 30,
                 activity := 8/10, last_used := none, total_actions := 0,
                 successful_actions := 0, banned_count := 0,
                 rate_limit_count := 0 }]

/-- Python truthiness of `account['last_used']` (an `Optional[float]`):
`not x` is true for `None` and for `0.0`. -/
def lastUsedFalsy : Option ℚ → Bool
  | none => true
  | some t => t == 0

/-- Embedding of `_get_cooldown_penalty` (`account_rotator.py`, lines 72-85).
`if not account['last_used']: return 1.0`; then a penalty of 0.5 when the
account was used within the last 3600 s; the `elif time_since_use < 1800`
branch returning 0.3 is kept exactly as in the source (it is dead code,
shadowed by the 3600 s branch). -/
def _get_cooldown_penalty (now : ℚ) (account : Account) : ℚ :=
  if lastUsedFalsy account.last_used then 1
  else
    match account.last_used with
    | none => 1
    | some t =>
      let time_since_use := now - t
      if time_since_use < 3600 then 1/2
      else if time_since_use < 1800 then 3/10
      else 1

/-- Embedding of `_calculate_account_score` (`account_rotator.py`, lines 52-70). -/
def _calculate_account_score (now : ℚ) (account : Account) : ℚ :=
  let success_rate := account.success_rate
  let age_score := min (account.age / 365) 1
  let activity_score := account.activity
  let cooldown_penalty := _get_cooldown_penalty now account
  let rate_limit_penalty := max 0 (1 - (account.rate_limit_count : ℚ) * (1/10))
  let ban_penalty := max 0 (1 - (account.banned_count : ℚ) * (2/10))
  (success_rate * (7/10) + age_score * (2/10) + activity_score * (1/10))
    * cooldown_penalty * rate_limit_penalty * ban_penalty

/-- First element of the list attaining the maximal value of `f`: the head of
a stable descending sort by `f`, which is what
`scored_accounts.sort(key=lambda x: x[1], reverse=True); scored_accounts[0]`
computes (Python's sort is stable, so equal scores keep list order). -/
def firstMaxBy (f : Account → ℚ) : List Account → Option Account
  | [] => none
  | a :: rest =>
    match firstMaxBy f rest with
    | none => some a
    | some b => if f a < f b then some b else some a

/-- Embedding of `get_best_account` (`account_rotator.py`, lines 31-50): filter to LIVE
accounts, return `None` if empty, otherwise the highest-scoring account
(first in list order on ties). -/
def get_best_account (accounts : List Account) (now : ℚ) : Option Account :=
  firstMaxBy (_calculate_account_score now)
    (accounts.filter (fun acc => acc.status == "LIVE"))

/-- Version of `get_best_account` viewed as a state transformer on the pool: the method
body only reads `self.accounts` and assigns no account field, so the state
component it returns is the pool it was given. -/
def get_best_accountST (accounts : List Account) (now : ℚ) :
    Option Account × List Account :=
  (get_best_account accounts now, accounts)

/-- Embedding of `mark_account_used` (`account_rotator.py`, lines 87-99): find the first
account with the given phone, set `last_used`, bump the counters, recompute
`success_rate`, and `break`. -/
def mark_account_used (accounts : List Account) (phone : String)
    (success : Bool) (now : ℚ) : List Account :=
  match accounts with
  | [] => []
  | account :: rest =>
    if account.phone == phone then
      let total := account.total_actions + 1
      let succ := account.successful_actions + (if success then 1 else 0)
      { account with last_used := some now, total_actions := total,
                     successful_actions := succ,
                     success_rate := (succ : ℚ) / (total : ℚ) } :: rest
    else account :: mark_account_used rest phone success now

/-- Embedding of `mark_account_banned` (`account_rotator.py`, lines 101-108):
set the first matching account's status to BANNED, bump `banned_count`, and
`break`. -/
def mark_account_banned (accounts : List Account) (phone : String) :
    List Account :=
  match accounts with
  | [] => []
  | account :: rest =>
    if account.phone == phone then
      { account with status := "BANNED",
                     banned_count := account.banned_count + 1 } :: rest
    else account :: mark_account_banned rest phone

/-- The `live_accounts` entry of `get_account_stats`
(`account_rotator.py`, lines 118-131). -/
def live_accounts (accounts : List Account) : ℕ :=
  (accounts.filter (fun acc => acc.status == "LIVE")).length

/-- Sum of the `total_actions` counters over the pool (the aggregate the
claims speak about). -/
def sumTotalActions (accounts : List Account) : ℕ :=
  (accounts.map (fun acc => acc.total_actions)).sum

/-! ## Bulk Action Scheduler (`scheduling/bulk_actions.py`) -/

/-- A time slot as built by `_generate_time_slots`
(`bulk_actions.py`, lines 174-179).  `start_time` is in local minutes. -/
structure TimeSlot where
  start_time : ℚ
  duration_hours : ℚ
  target_actions : ℕ
  is_peak_time : Bool
  deriving DecidableEq, Repr

/-- A per-account allocation as built by `_calculate_distribution`
(`bulk_actions.py`, lines 101-113). -/
structure AccountDistribution where
  account_index : ℕ
  users_count : ℕ
  start_time : ℚ
  hours_needed : ℚ
  actions_per_hour : ℕ
  time_slots : List TimeSlot
  deriving DecidableEq, Repr

/-- A scrape batch as built by `_calculate_scrape_distribution`
(`bulk_actions.py`, lines 132-137). -/
structure ScrapeBatch where
  batch_index : ℕ
  sources : List String
  start_time : ℚ
  estimated_duration : ℕ
  deriving DecidableEq, Repr

/-- The payload half of a task dict: `ADD_MEMBERS` tasks carry
`group`/`users`/`distribution`, `BULK_SCRAPE` tasks carry
`sources`/`distribution`. -/
inductive TaskPayload where
  | addMembers (group : String) (users : List String)
      (distribution : List AccountDistribution)
  | bulkScrape (sources : List String) (distribution : List ScrapeBatch)
  deriving DecidableEq, Repr

/-- A task dict as built by `schedule_add_members` / `schedule_bulk_scrape`
(`bulk_actions.py`, lines 30-41 and 58-68).  The `type` key is determined by
the payload constructor. -/
structure Task where
  id : String
  payload : TaskPayload
  timezone : String
  created_at : ℚ
  status : String
  progress : ℕ
  total_actions : ℕ
  started_at : Option ℚ := none
  completed_at : Option ℚ := none
  error : Option String := none
  deriving DecidableEq, Repr

/-- The timezone names accepted by `pytz.timezone(...)`
(`bulk_actions.py`, lines 79 and 123): on any other string pytz raises
`UnknownTimeZoneError` before the planner computes anything.  The tz
database is external configuration data shipped with pytz; it is modelled
here by the five zone names the peak-hour table covers — every concrete
timezone appearing in a theorem below is one of these, so the
under-approximation of the full database is never exercised. -/
def pytz_known_timezones : List String :=
  ["UTC", "America/New_York", "Europe/London", "Asia/Tokyo",
   "Australia/Sydney"]

/-- Embedding of `_get_peak_hours` (`bulk_actions.py`, lines 143-154): the fixed
timezone-keyed table, with the UTC row as fallback. -/
def _get_peak_hours (timezone : String) : List ℕ :=
  if timezone == "America/New_York" then [9, 10, 11, 13, 14, 15, 18, 19, 20]
  else if timezone == "Europe/London" then [8, 9, 10, 12, 13, 14, 17, 18, 19]
  else if timezone == "Asia/Tokyo" then [7, 8, 9, 11, 12, 13, 16, 17, 18]
  else if timezone == "Australia/Sydney" then [7, 8, 9, 11, 12, 13, 16, 17, 18]
  else [9, 10, 11, 14, 15, 16, 19, 20]

/-- One iteration of the `while remaining_hours > 0` loop of
`_generate_time_slots` (`bulk_actions.py`, lines 164-184), fuelled for
structural recursion.  `currentMin` is the slot's start in local minutes, so
its local hour-of-day is `currentMin / 60 % 24` (adding `timedelta(hours=1)`
to a tz-aware datetime advances `.hour` by exactly 1 mod 24; pytz applies no
renormalisation on arithmetic).  `int(actions_per_hour * 1.2)` and
`int(actions_per_hour * 0.8)` truncate a nonnegative product, i.e. take its
floor, modelled exactly as `actions_per_hour * 6 / 5` and
`actions_per_hour * 4 / 5` in `ℕ`; `int(remaining_hours * actions_per_hour)`
is `⌊remaining_hours * actions_per_hour⌋`. -/
def genTimeSlotsAux (actions_per_hour : ℕ) (peak_hours : List ℕ) :
    ℕ → ℕ → ℚ → List TimeSlot
  | 0, _, _ => []
  | fuel + 1, currentMin, remaining_hours =>
    if remaining_hours > 0 then
      let slot_duration : ℚ := min 1 remaining_hours
      let hour := currentMin / 60 % 24
      let slot_actions :=
        if hour ∈ peak_hours then actions_per_hour * 6 / 5
        else actions_per_hour * 4 / 5
      let time_slot : TimeSlot :=
        { start_time := (currentMin : ℚ),
          duration_hours := slot_duration,
          target_actions :=
            min slot_actions (⌊remaining_hours * (actions_per_hour : ℚ)⌋.toNat),
          is_peak_time := hour ∈ peak_hours }
      time_slot ::
        genTimeSlotsAux actions_per_hour peak_hours fuel (currentMin + 60)
          (remaining_hours - slot_duration)
    else []

/-- Embedding of `_generate_time_slots` (`bulk_actions.py`, lines 156-186).  The loop runs
exactly `⌈hours_needed⌉` times — each pass lowers `remaining_hours` by
`min 1 remaining_hours`, taking it to 0 in the pass after it drops to at
most 1 — so `⌈hours_needed⌉.toNat` fuel runs the loop to completion and
never truncates it. -/
def _generate_time_slots (startMin : ℕ) (hours_needed : ℚ)
    (actions_per_hour : ℕ) (peak_hours : List ℕ) : List TimeSlot :=
  genTimeSlotsAux actions_per_hour peak_hours ⌈hours_needed⌉.toNat startMin
    hours_needed

/-- The allocation the loop body of `_calculate_distribution`
(`bulk_actions.py`, lines 93-115) builds for identity index `i`.  The
quantities `users_per_account`, `remaining_users` and
`actions_per_hour_per_account` are computed once before the loop in the
source; as pure integer divisions they are simply recomputed here. -/
def accountAllocation (total_users accounts_count accounts_per_hour
    nowMin : ℕ) (peak_hours : List ℕ) (i : ℕ) : AccountDistribution :=
  let users_per_account := total_users / accounts_count
  let remaining_users := total_users % accounts_count
  let actions_per_hour_per_account := accounts_per_hour / accounts_count
  let account_users :=
    users_per_account + (if i < remaining_users then 1 else 0)
  let hours_needed : ℚ :=
    (account_users : ℚ) / (actions_per_hour_per_account : ℚ)
  let startMin := nowMin + i * 10
  { account_index := i,
    users_count := account_users,
    start_time := (startMin : ℚ),
    hours_needed := hours_needed,
    actions_per_hour := actions_per_hour_per_account,
    time_slots := _generate_time_slots startMin hours_needed
      actions_per_hour_per_account peak_hours }

/-- Embedding of `_calculate_distribution` (`bulk_actions.py`, lines 75-117).
The first statement, `tz = pytz.timezone(timezone)` (line 79), raises
`UnknownTimeZoneError` for a name outside the tz database, before anything
else runs.  Then `total_users // accounts_count` raises `ZeroDivisionError`
when `accounts_count == 0`; otherwise the loop body's
`hours_needed = account_users / actions_per_hour_per_account` raises on its
first iteration (the loop runs, `accounts_count ≥ 1`) when
`accounts_per_hour // accounts_count == 0`. -/
def _calculate_distribution (total_users accounts_count accounts_per_hour : ℕ)
    (timezone : String) (nowMin : ℕ) :
    Except PyError (List AccountDistribution) :=
  if pytz_known_timezones.contains timezone then
    if accounts_count = 0 then .error .zeroDivisionError
    else if accounts_per_hour / accounts_count = 0 then
      .error .zeroDivisionError
    else
      .ok ((List.range accounts_count).map
        (accountAllocation total_users accounts_count accounts_per_hour nowMin
          (_get_peak_hours timezone)))
  else .error .unknownTimeZoneError

/-- Embedding of `schedule_add_members` (`bulk_actions.py`, lines 15-46).  The task id's
timestamp suffix is irrelevant to every claim and is left fixed. -/
def schedule_add_members (accounts : List Account) (group : String)
    (users : List String) (accounts_per_hour : ℕ) (timezone : String)
    (nowMin : ℕ) : Except PyError Task :=
  let total_users := users.length
  let accounts_needed := min users.length (live_accounts accounts)
  match _calculate_distribution total_users accounts_needed accounts_per_hour
      timezone nowMin with
  | .error e => .error e
  | .ok distribution =>
    .ok { id := "add_members_task",
          payload := .addMembers group users distribution,
          timezone := timezone, created_at := (nowMin : ℚ),
          status := "SCHEDULED", progress := 0,
          total_actions := total_users }

/-- Embedding of `_calculate_scrape_distribution` (`bulk_actions.py`, lines
119-141).  The first statement, `tz = pytz.timezone(timezone)` (line 123),
raises `UnknownTimeZoneError` for a name outside the tz database.  Then
`len(sources) // accounts_per_hour` raises when `accounts_per_hour == 0`;
otherwise `range(0, len(sources), sources_per_batch)` yields the starts
`b * sources_per_batch` for `b < ⌈len / sources_per_batch⌉`. -/
def _calculate_scrape_distribution (sources : List String)
    (accounts_per_hour : ℕ) (timezone : String) (nowMin : ℕ) :
    Except PyError (List ScrapeBatch) :=
  if pytz_known_timezones.contains timezone then
    if accounts_per_hour = 0 then .error .zeroDivisionError
    else
      let sources_per_batch := max 1 (sources.length / accounts_per_hour)
      let numBatches :=
        (sources.length + sources_per_batch - 1) / sources_per_batch
      .ok ((List.range numBatches).map (fun b =>
        let i := b * sources_per_batch
        let batch_sources := (sources.drop i).take sources_per_batch
        { batch_index := b,
          sources := batch_sources,
          start_time := (nowMin : ℚ) + (i : ℚ),
          estimated_duration := batch_sources.length * 2 }))
  else .error .unknownTimeZoneError

/-- Embedding of `schedule_bulk_scrape` (`bulk_actions.py`, lines 48-73). -/
def schedule_bulk_scrape (sources : List String) (accounts_per_hour : ℕ)
    (timezone : String) (nowMin : ℕ) : Except PyError Task :=
  match _calculate_scrape_distribution sources accounts_per_hour timezone
      nowMin with
  | .error e => .error e
  | .ok distribution =>
    .ok { id := "bulk_scrape_task",
          payload := .bulkScrape sources distribution,
          timezone := timezone, created_at := (nowMin : ℚ),
          status := "SCHEDULED", progress := 0,
          total_actions := sources.length }

/-- The injected single-action collaborator
(`_add_single_member` / the spec's `ActionExecutor`): given the account, the
target group and the work item it returns `true` when the awaited call
returns normally and `false` when it raises. -/
abbrev ActionExec := Account → String → String → Bool

/-- The per-slot action loop of `_execute_add_members_task`
(`bulk_actions.py`, lines 245-256): for each `action_num` in
`range(target_actions)`, the `try` block awaits the single action on
`task['users'][action_num]` and then increments `task['progress']`; any
exception — an `IndexError` from the subscript as well as a failure of the
action itself — is caught by the `except`, so a failed unit leaves
`progress` unchanged and the loop proceeds. -/
def run_slot_actions (exec : ActionExec) (account : Account) (group : String)
    (users : List String) (target_actions : ℕ) (progress : ℕ) : ℕ :=
  (List.range target_actions).foldl (fun p action_num =>
    match users[action_num]? with
    | none => p
    | some user => if exec account group user then p + 1 else p) progress

/-- The observable outcome of driving one task: the mutated task, the account
pool as the rotator leaves it, and the number of `get_best_account` calls the
executor issued (instrumentation recording the rotator traffic; the source
performs one such call at the top of each allocation iteration,
`bulk_actions.py` line 226, and none anywhere else in the add-members path). -/
structure ExecResult where
  task : Task
  pool : List Account
  selects : ℕ
  deriving Repr

/-- One iteration of the allocation loop of `_execute_add_members_task`
(`bulk_actions.py`, lines 224-256): call `get_best_account()` once for the
allocation; `continue` when it returns `None`; otherwise run every time
slot's action loop with that one account.  The slot waits and the
inter-action `asyncio.sleep` pacing only suspend and touch no state, so they
are modelled as no-ops.  The state is `(progress, pool, selections)` where
the last component counts the `get_best_account` calls issued so far. -/
def addMembersStep (exec : ActionExec) (now : ℚ) (group : String)
    (users : List String) (st : ℕ × List Account × ℕ)
    (account_dist : AccountDistribution) : ℕ × List Account × ℕ :=
  let (p, pl, sel) := st
  match get_best_accountST pl now with
  | (none, pl') => (p, pl', sel + 1)
  | (some account, pl') =>
    (account_dist.time_slots.foldl (fun q time_slot =>
      run_slot_actions exec account group users time_slot.target_actions q)
      p, pl', sel + 1)

/-- Embedding of `_execute_add_members_task` (`bulk_actions.py`, lines
220-256).  The body never calls `mark_account_used` — no outcome reporting
appears anywhere in `bulk_actions.py` — so the pool passes through the
allocation loop untouched. -/
def _execute_add_members_task (exec : ActionExec) (pool : List Account)
    (now : ℚ) (group : String) (users : List String)
    (distribution : List AccountDistribution) (progress : ℕ) :
    ℕ × List Account × ℕ :=
  distribution.foldl (addMembersStep exec now group users) (progress, pool, 0)

/-- One per-source iteration of `_execute_bulk_scrape_task`
(`bulk_actions.py`, lines 272-284): the `try` block asks the rotator for an
account and, when one exists, scrapes and increments progress; failures are
caught per-source.  `scrape` plays the role of `_scrape_single_source`. -/
def scrapeSourceStep (scrape : Account → String → Bool) (now : ℚ)
    (st : ℕ × List Account × ℕ) (source : String) : ℕ × List Account × ℕ :=
  let (p, pl, sel) := st
  match get_best_accountST pl now with
  | (none, pl') => (p, pl', sel + 1)
  | (some account, pl') =>
    (if scrape account source then p + 1 else p, pl', sel + 1)

/-- Embedding of `_execute_bulk_scrape_task` (`bulk_actions.py`, lines
258-284): for each batch, for each source in the batch, run the per-source
step; the batch-start wait only suspends and is modelled as a no-op. -/
def _execute_bulk_scrape_task (scrape : Account → String → Bool)
    (pool : List Account) (now : ℚ) (distribution : List ScrapeBatch)
    (progress : ℕ) : ℕ × List Account × ℕ :=
  distribution.foldl (fun st batch =>
    batch.sources.foldl (scrapeSourceStep scrape now) st)
    (progress, pool, 0)

/-- Embedding of `execute_scheduled_task` (`bulk_actions.py`, lines 188-218): no-op unless
the task is in `SCHEDULED`; otherwise transition to `RUNNING`, drive the
payload-specific executor, and transition to `COMPLETED`.  Neither embedded
executor body can raise past the per-unit `try` boundaries, so the `except`
branch setting `FAILED` is unreachable for tasks of this model. -/
def execute_scheduled_task (exec : ActionExec)
    (scrape : Account → String → Bool) (pool : List Account) (now : ℚ)
    (task : Task) : ExecResult :=
  if task.status != "SCHEDULED" then
    { task := task, pool := pool, selects := 0 }
  else
    let running := { task with status := "RUNNING", started_at := some now }
    match running.payload with
    | .addMembers group users distribution =>
      let (p, pl, sel) :=
        _execute_add_members_task exec pool now group users distribution
          running.progress
      let done := { running with
                    status := "COMPLETED", progress := p,
                    completed_at := some now }
      { task := done, pool := pl, selects := sel }
    | .bulkScrape _ distribution =>
      let (p, pl, sel) :=
        _execute_bulk_scrape_task scrape pool now distribution
          running.progress
      let done := { running with
                    status := "COMPLETED", progress := p,
                    completed_at := some now }
      { task := done, pool := pl, selects := sel }

/-- Embedding of `_get_task` (`bulk_actions.py`, lines 296-301). -/
def _get_task (tasks : List Task) (task_id : String) : Option Task :=
  tasks.find? (fun task => task.id == task_id)

/-- The status snapshot returned by `get_task_status`
(`bulk_actions.py`, lines 309-318). -/
structure StatusSnapshot where
  id : String
  status : String
  progress : ℕ
  total_actions : ℕ
  progress_percentage : ℚ
  error : Option String
  deriving DecidableEq, Repr

/-- The result of a `get_task_status` call: the `{'status': 'not_found'}`
dict for an unknown id, or a full snapshot. -/
inductive StatusResult where
  | notFound
  | snapshot (s : StatusSnapshot)
  deriving DecidableEq, Repr

/-- Embedding of `get_task_status` (`bulk_actions.py`, lines 303-318):
`(task['progress'] / task['total_actions']) * 100` raises
`ZeroDivisionError` whenever `total_actions == 0`. -/
def get_task_status (tasks : List Task) (task_id : String) :
    Except PyError StatusResult :=
  match _get_task tasks task_id with
  | none => .ok .notFound
  | some task =>
    if task.total_actions = 0 then .error .zeroDivisionError
    else
      .ok (.snapshot
        { id := task.id, status := task.status, progress := task.progress,
          total_actions := task.total_actions,
          progress_percentage :=
            ((task.progress : ℚ) / (task.total_actions : ℚ)) * 100,
          error := task.error })

/-! ## Concrete fixtures

Pools, tasks and plans used by the concrete theorems below.  They are built
through the embedded operations themselves wherever possible. -/

/-- The account record that `add_account [] "acct_a" "sess_a" none` creates. -/
def acctA : Account :=
  { phone := "acct_a", session_path := "sess_a", proxy := none,
    status := "LIVE", success_rate := 1, age := 30, activity := 8/10,
    last_used := none, total_actions := 0, successful_actions := 0,
    banned_count := 0, rate_limit_count := 0 }

/-- A pool holding a single fresh LIVE account. -/
def onePool : List Account := add_account [] "acct_a" "sess_a" none

/-- Fallback task used only as the default of `Option.getD` on results that
are proved to be `.ok`. -/
def dummyTask : Task :=
  { id := "dummy", payload := .bulkScrape [] [], timezone := "UTC",
    created_at := 0, status := "", progress := 0, total_actions := 0 }

/-- Constructor for a freshly scheduled ADD_MEMBERS task, as
`schedule_add_members` builds it. -/
def mkAddMembersTask (id group : String) (users : List String)
    (distribution : List AccountDistribution) (tz : String) (created : ℚ)
    (tot : ℕ) : Task :=
  { id := id, payload := .addMembers group users distribution,
    timezone := tz, created_at := created, status := "SCHEDULED",
    progress := 0, total_actions := tot }

/-- The plan `_calculate_distribution 1 1 10 "UTC" 0` produces: one
allocation of one user, 1/10 h of work, one off-peak slot targeting a single
action (`oneUserPlan_eq` below proves this). -/
def oneUserPlan : List AccountDistribution :=
  [{ account_index := 0, users_count := 1, start_time := 0,
     hours_needed := 1/10, actions_per_hour := 10,
     time_slots := [{ start_time := 0, duration_hours := 1/10,
                      target_actions := 1, is_peak_time := false }] }]

/-- The task `schedule_add_members onePool "grp" ["u1"] 10 "UTC" 0` builds
(`oneUserTask_scheduled` below proves this). -/
def oneUserTask : Task :=
  mkAddMembersTask "add_members_task" "grp" ["u1"] oneUserPlan "UTC" 0 1

/-- The plan for 25 users on 1 identity at 10 actions/hour, planned at 09:00
local time in `UTC` (so every generated slot falls in peak hours). -/
def peakPlan : List AccountDistribution :=
  (_calculate_distribution 25 1 10 "UTC" 540).toOption.getD []

/-- The single allocation `peakPlan` consists of: 2.5 hours of work whose
three slots (hours 9, 10, 11, all peak) target 12, 12 and 5 actions. -/
def peakAlloc : AccountDistribution :=
  { account_index := 0, users_count := 25, start_time := 540,
    hours_needed := 5/2, actions_per_hour := 10,
    time_slots :=
      [{ start_time := 540, duration_hours := 1, target_actions := 12,
         is_peak_time := true },
       { start_time := 600, duration_hours := 1, target_actions := 12,
         is_peak_time := true },
       { start_time := 660, duration_hours := 1/2, target_actions := 5,
         is_peak_time := true }] }

/-- A pool whose only account has been banned: no LIVE account remains. -/
def bannedPool : List Account :=
  mark_account_banned (add_account [] "acct_b" "sess_b" none) "acct_b"

/-- A LIVE account last used 4000 s before the reference instant 5000 (so no
cooldown penalty applies at that instant). -/
def tieA : Account := { acctA with phone := "tie_a", last_used := some 1000 }

/-- A LIVE account that was never used, otherwise identical to `tieA`. -/
def tieB : Account := { acctA with phone := "tie_b" }

/-- An account whose `last_used` timestamp is exactly `0.0` — a falsy value
for Python's `not account['last_used']` check. -/
def epochAcct : Account := { acctA with phone := "epoch", last_used := some 0 }

/-- An account last used at time 100 (within the 3600 s window of the
reference instant 200). -/
def recentAcct : Account :=
  { acctA with phone := "recent", last_used := some 100 }

/-! ## Helper lemmas: cooldown penalty -/

/-- An account never used gets no cooldown penalty. -/
theorem cooldown_penalty_of_none (b : Account) (hb : b.last_used = none)
    (now : ℚ) : _get_cooldown_penalty now b = 1 := by
  simp [_get_cooldown_penalty, hb, lastUsedFalsy]

/-- A `last_used` of exactly `0.0` is falsy in the source check and yields
no cooldown penalty. -/
theorem cooldown_penalty_of_zero (b : Account) (hb : b.last_used = some 0)
    (now : ℚ) : _get_cooldown_penalty now b = 1 := by
  simp [_get_cooldown_penalty, hb, lastUsedFalsy]

/-- For a truthy `last_used`, the penalty is 0.5 within the 3600 s window and
1 outside it; the 0.3 tier never fires. -/
theorem cooldown_penalty_of_some (b : Account) (t : ℚ)
    (hb : b.last_used = some t) (ht : t ≠ 0) (now : ℚ) :
    _get_cooldown_penalty now b = if now - t < 3600 then 1/2 else 1 := by
  have hf : lastUsedFalsy (some t) = false := by simp [lastUsedFalsy, ht]
  simp only [_get_cooldown_penalty, hb, hf, Bool.false_eq_true, if_false]
  by_cases hlt : now - t < 3600
  · rw [if_pos hlt, if_pos hlt]
  · rw [if_neg hlt, if_neg hlt,
      if_neg (fun hc : now - t < 1800 => hlt (hc.trans (by norm_num)))]

/-- No input at all makes the scorer produce the dead 0.3 cooldown tier. -/
theorem cooldown_penalty_ne_three_tenths (b : Account) (m : ℚ) :
    _get_cooldown_penalty m b ≠ 3/10 := by
  cases hb : b.last_used with
  | none => rw [cooldown_penalty_of_none b hb m]; norm_num
  | some s =>
    by_cases hs : s = 0
    · subst hs; rw [cooldown_penalty_of_zero b hb m]; norm_num
    · rw [cooldown_penalty_of_some b s hb hs m]; split_ifs <;> norm_num

/-! ## Helper lemmas: `firstMaxBy` -/

/-- On a nonempty list, `firstMaxBy` always yields an account. -/
theorem firstMaxBy_cons_ne_none (f : Account → ℚ) (a : Account)
    (rest : List Account) : firstMaxBy f (a :: rest) ≠ none := by
  cases hr : firstMaxBy f rest with
  | none => simp [firstMaxBy, hr]
  | some b => by_cases hc : f a < f b <;> simp [firstMaxBy, hr, hc]

/-- `firstMaxBy` yields `none` exactly on the empty list. -/
theorem firstMaxBy_eq_none_iff (f : Account → ℚ) (l : List Account) :
    firstMaxBy f l = none ↔ l = [] := by
  cases l with
  | nil => simp [firstMaxBy]
  | cons a rest =>
    simp only [iff_false_intro (List.cons_ne_nil a rest), iff_false]
    exact firstMaxBy_cons_ne_none f a rest

/-- The account `firstMaxBy` yields is an element of the list. -/
theorem firstMaxBy_mem (f : Account → ℚ) :
    ∀ (l : List Account) (a : Account), firstMaxBy f l = some a → a ∈ l := by
  intro l
  induction l with
  | nil => intro a h; simp [firstMaxBy] at h
  | cons x rest ih =>
    intro a h
    cases hr : firstMaxBy f rest with
    | none =>
      simp only [firstMaxBy, hr] at h
      simp [← Option.some.inj h]
    | some b =>
      simp only [firstMaxBy, hr] at h
      by_cases hc : f x < f b
      · rw [if_pos hc] at h
        exact List.mem_cons_of_mem x (Option.some.inj h ▸ ih b hr)
      · rw [if_neg hc] at h
        rw [← Option.some.inj h]
        exact List.mem_cons_self x rest

/-- `firstMaxBy` returns the head of the middle segment when everything
before it scores strictly lower and everything after it scores no higher:
the first maximal element wins. -/
theorem firstMaxBy_append (f : Account → ℚ) :
    ∀ (pre : List Account) (a : Account) (post : List Account),
      (∀ b ∈ pre, f b < f a) → (∀ b ∈ post, f b ≤ f a) →
      firstMaxBy f (pre ++ a :: post) = some a := by
  intro pre
  induction pre with
  | nil =>
    intro a post _ hpost
    cases hr : firstMaxBy f post with
    | none => simp [firstMaxBy, hr]
    | some b =>
      have hb := not_lt.mpr (hpost b (firstMaxBy_mem f post b hr))
      simp [firstMaxBy, hr, hb]
  | cons x pre' ih =>
    intro a post hpre hpost
    have hx : f x < f a := hpre x (List.mem_cons_self x pre')
    have hrec := ih a post (fun b hb => hpre b (List.mem_cons_of_mem x hb))
      hpost
    simp [firstMaxBy, hrec, hx]

/-- The scores of `tieA` and `tieB` agree at time 5000: neither is inside a
cooldown window, and all other fitness fields coincide. -/
theorem tie_scores_eq :
    _calculate_account_score 5000 tieA = _calculate_account_score 5000 tieB := by
  have hA : _get_cooldown_penalty 5000 tieA = 1 := by
    rw [cooldown_penalty_of_some tieA 1000 rfl (by norm_num) 5000]
    norm_num
  have hB := cooldown_penalty_of_none tieB rfl 5000
  simp only [_calculate_account_score, hA, hB]
  rfl

/-! ## Claim theorems: Account Rotator -/

/-- C5: `selectBest` (`get_best_account`) never returns an account whose
status is not LIVE, and it returns `None` if and only if the pool contains no
LIVE account. -/
theorem selectBest_only_live (accounts : List Account) (now : ℚ) :
    (get_best_account accounts now = none ↔
      ∀ acc ∈ accounts, acc.status ≠ "LIVE") ∧
    ∀ acc, get_best_account accounts now = some acc →
      acc ∈ accounts ∧ acc.status = "LIVE" := by
  constructor
  · rw [get_best_account, firstMaxBy_eq_none_iff, List.filter_eq_nil_iff]
    simp
  · intro acc h
    have hm := List.mem_filter.mp (firstMaxBy_mem _ _ _ h)
    exact ⟨hm.1, by simpa using hm.2⟩

/-- Witness for C5 at a concrete pool: the account selected from `onePool`
is a LIVE member of the pool. -/
theorem selectBest_only_live_witness :
    acctA ∈ onePool ∧ acctA.status = "LIVE" :=
  (selectBest_only_live onePool 0).2 acctA rfl

/-- C6, counterexample: `tieA` and `tieB` are LIVE and attain the same
maximal score at time 5000, `tieB`'s `last_used` is `None` (earliest) while
`tieA` was used at 1000, yet selection returns `tieA` — the first of the two
in pool order — not `tieB` as the claim requires. -/
theorem selectBest_tie_counterexample :
    tieA.status = "LIVE" ∧ tieB.status = "LIVE" ∧
    _calculate_account_score 5000 tieA = _calculate_account_score 5000 tieB ∧
    tieB.last_used = none ∧ tieA.last_used = some 1000 ∧
    get_best_account [tieA, tieB] 5000 = some tieA ∧
    get_best_account [tieA, tieB] 5000 ≠ some tieB := by
  have hmain : get_best_account [tieA, tieB] 5000 = some tieA := by
    have hfil : ([tieA, tieB] : List Account).filter
        (fun acc => acc.status == "LIVE") = [tieA, tieB] := rfl
    rw [get_best_account, hfil]
    have h2 : firstMaxBy (_calculate_account_score 5000) [tieB] = some tieB :=
      rfl
    simp only [firstMaxBy, h2]
    rw [tie_scores_eq, if_neg (lt_irrefl _)]
  refine ⟨rfl, rfl, tie_scores_eq, rfl, rfl, hmain, ?_⟩
  intro hcontra
  rw [hmain] at hcontra
  have hphone : tieA.phone = tieB.phone :=
    congrArg Account.phone (Option.some.inj hcontra)
  exact absurd hphone (by decide)

/-- C6 as amended: ties among maximal-scoring LIVE accounts are broken by
pool order (Python's stable sort keeps list order on equal scores), not by
`last_used`: the LIVE account that weakly dominates every LIVE account after
it and strictly dominates every LIVE account before it is returned. -/
theorem selectBest_tie_pool_order (now : ℚ) (pre post : List Account)
    (a : Account) (ha : a.status = "LIVE")
    (hpre : ∀ b ∈ pre, b.status = "LIVE" →
      _calculate_account_score now b < _calculate_account_score now a)
    (hpost : ∀ b ∈ post, b.status = "LIVE" →
      _calculate_account_score now b ≤ _calculate_account_score now a) :
    get_best_account (pre ++ a :: post) now = some a := by
  rw [get_best_account, List.filter_append]
  have hcons : (a :: post).filter (fun acc => acc.status == "LIVE") =
      a :: post.filter (fun acc => acc.status == "LIVE") := by
    simp [List.filter_cons, ha]
  rw [hcons]
  refine firstMaxBy_append _ _ _ _ ?_ ?_
  · intro b hb
    have hm := List.mem_filter.mp hb
    exact hpre b hm.1 (by simpa using hm.2)
  · intro b hb
    have hm := List.mem_filter.mp hb
    exact hpost b hm.1 (by simpa using hm.2)

/-- Witness for the amended C6: on the tied pool `[tieA, tieB]` the account
returned is `tieA`, the first in pool order. -/
theorem selectBest_tie_pool_order_witness :
    get_best_account [tieA, tieB] 5000 = some tieA := by
  have h := selectBest_tie_pool_order 5000 [] [tieB] tieA rfl (by simp)
    (fun b hb _ => by
      rw [show b = tieB by simpa using hb]
      exact le_of_eq tie_scores_eq.symm)
  simpa using h

/-- C8, counterexample: `epochAcct` has the non-null `last_used` timestamp
`0.0`; at time 100 the elapsed time is below 3600 s, yet the penalty is 1.0,
not 0.5 — `if not account['last_used']` also treats the timestamp `0.0` as
"never used". -/
theorem cooldown_epoch_counterexample :
    epochAcct.last_used = some 0 ∧ ((100 : ℚ) - 0 < 3600) ∧
    _get_cooldown_penalty 100 epochAcct = 1 ∧
    _get_cooldown_penalty 100 epochAcct ≠ 1/2 := by
  refine ⟨rfl, by norm_num, cooldown_penalty_of_zero epochAcct rfl 100, ?_⟩
  rw [cooldown_penalty_of_zero epochAcct rfl 100]
  norm_num

/-- C8 as amended: for every account whose `last_used` is non-null and
non-zero, the penalty is 0.5 exactly when the elapsed time is below 3600 s
and 1.0 otherwise (so the 1800 s condition never matters); a `None`
`last_used` gives 1.0; and no input whatsoever produces the dead 0.3 tier. -/
theorem cooldown_penalty_tiers (account : Account) (now t : ℚ)
    (h : account.last_used = some t) (ht : t ≠ 0) :
    _get_cooldown_penalty now account =
      (if now - t < 3600 then 1/2 else 1) ∧
    (∀ b : Account, b.last_used = none → _get_cooldown_penalty now b = 1) ∧
    (∀ (b : Account) (m : ℚ), _get_cooldown_penalty m b ≠ 3/10) :=
  ⟨cooldown_penalty_of_some account t h ht now,
   fun b hb => cooldown_penalty_of_none b hb now,
   fun b m => cooldown_penalty_ne_three_tenths b m⟩

/-- Witness for the amended C8: an account last used 100 s before the
instant 200 gets the 0.5 penalty. -/
theorem cooldown_penalty_tiers_witness :
    _get_cooldown_penalty 200 recentAcct = 1/2 := by
  rw [(cooldown_penalty_tiers recentAcct 200 100 rfl (by norm_num)).1]
  norm_num

/-- C10: `get_best_account` has no side effects on the pool: viewed as a
state transformer it returns the account pool unchanged — so every field of
every account (`last_used` and the cooldown penalty derived from it
included) is as before, and a repeated selection sees the identical pool. -/
theorem selectBest_no_side_effects (accounts : List Account) (now t : ℚ) :
    (get_best_accountST accounts now).2 = accounts ∧
    ((get_best_accountST accounts now).2).map (fun acc => acc.last_used) =
      accounts.map (fun acc => acc.last_used) ∧
    ((get_best_accountST accounts now).2).map
        (fun acc => _get_cooldown_penalty t acc) =
      accounts.map (fun acc => _get_cooldown_penalty t acc) ∧
    get_best_account (get_best_accountST accounts now).2 t =
      get_best_account accounts t :=
  ⟨rfl, rfl, rfl, rfl⟩

/-! ## Helper lemmas: distribution planner -/

/-- Users allocated to identity `i`: an even share plus one for the first
`total % n` identities. -/
theorem accountAllocation_users_count (total n budget nowMin : ℕ)
    (pk : List ℕ) (i : ℕ) :
    (accountAllocation total n budget nowMin pk i).users_count =
      total / n + (if i < total % n then 1 else 0) := rfl

/-- Summing an even share plus the leading extras over `n` identities. -/
theorem sum_users_counts (n q r : ℕ) :
    ((List.range n).map (fun i => q + (if i < r then 1 else 0))).sum =
      n * q + min r n := by
  induction n with
  | zero => simp
  | succ n ih =>
    rw [List.range_succ, List.map_append, List.sum_append, ih]
    have hsing : ([n].map (fun i => q + (if i < r then 1 else 0))).sum =
        q + (if n < r then 1 else 0) := by simp
    rw [hsing, Nat.succ_mul]
    by_cases h : n < r
    · rw [if_pos h, min_eq_right h.le, min_eq_right (Nat.succ_le_of_lt h)]
      simp only [Nat.succ_eq_add_one]
      ring
    · have hr : r ≤ n := not_lt.mp h
      rw [if_neg h, min_eq_left hr, min_eq_left (hr.trans (Nat.le_succ n))]
      ring

/-- Evaluation of the planner on the one-user workload: the plan is
`oneUserPlan`. -/
theorem calculate_distribution_one_eq :
    _calculate_distribution 1 1 10 "UTC" 0 = .ok oneUserPlan := by
  have hc : (⌈(1:ℚ)/10⌉ : ℤ) = 1 := Int.ceil_eq_iff.mpr (by norm_num)
  have hpk : _get_peak_hours "UTC" = [9, 10, 11, 14, 15, 16, 19, 20] := rfl
  have hv : "UTC" ∈ pytz_known_timezones := by decide
  have hr : List.range 1 = [0] := rfl
  norm_num [oneUserPlan, _calculate_distribution, accountAllocation,
    _generate_time_slots, genTimeSlotsAux, min_def, hc, hpk, hv, hr]

/-- Evaluation of the scheduler on the one-user workload over `onePool`: the
stored task is `oneUserTask`. -/
theorem oneUserTask_scheduled :
    schedule_add_members onePool "grp" ["u1"] 10 "UTC" 0 = .ok oneUserTask := by
  have hlive : live_accounts onePool = 1 := rfl
  simp [schedule_add_members, hlive, calculate_distribution_one_eq,
    oneUserTask, mkAddMembersTask]

/-- Evaluation of the planner on 25 users, 1 identity, 10 actions/hour,
planned at 09:00 UTC: the plan is the single allocation `peakAlloc`. -/
theorem calculate_distribution_peak_eq :
    _calculate_distribution 25 1 10 "UTC" 540 = .ok [peakAlloc] := by
  have hc : (⌈(5:ℚ)/2⌉ : ℤ) = 3 := Int.ceil_eq_iff.mpr (by norm_num)
  have hpk : _get_peak_hours "UTC" = [9, 10, 11, 14, 15, 16, 19, 20] := rfl
  have hv : "UTC" ∈ pytz_known_timezones := by decide
  have hr : List.range 1 = [0] := rfl
  have ht : (5 : ℤ).toNat = 5 := rfl
  norm_num [peakAlloc, _calculate_distribution, accountAllocation,
    _generate_time_slots, genTimeSlotsAux, min_def, hc, hpk, hv, hr, ht]

/-! ## Helper lemmas: time slot generation -/

/-- Every slot the generator emits has a positive duration of at most one
hour. -/
theorem genTimeSlotsAux_duration (aph : ℕ) (peak : List ℕ) :
    ∀ (fuel m : ℕ) (r : ℚ) (s : TimeSlot),
      s ∈ genTimeSlotsAux aph peak fuel m r →
      0 < s.duration_hours ∧ s.duration_hours ≤ 1 := by
  intro fuel
  induction fuel with
  | zero => intro m r s hs; simp [genTimeSlotsAux] at hs
  | succ fuel ih =>
    intro m r s hs
    by_cases hr : r > 0
    · simp only [genTimeSlotsAux, if_pos hr, List.mem_cons] at hs
      rcases hs with hs | hs
      · subst hs
        exact ⟨lt_min one_pos hr, min_le_left 1 r⟩
      · exact ih (m + 60) (r - min 1 r) s hs
    · simp [genTimeSlotsAux, hr] at hs

/-- One pass of the generator loop decreases the ceiling of the remaining
hours. -/
theorem ceil_remaining_step (r : ℚ) (hr : 0 < r) :
    ⌈r - min 1 r⌉.toNat + 1 ≤ ⌈r⌉.toNat := by
  have h2 : (0 : ℤ) < ⌈r⌉ := Int.ceil_pos.mpr hr
  by_cases h1 : r ≤ 1
  · have h0 : r - min 1 r = 0 := by rw [min_eq_right h1]; ring
    rw [h0, Int.ceil_zero]
    omega
  · have h1' : (1 : ℚ) ≤ r := (lt_of_not_le h1).le
    rw [min_eq_left h1']
    have h3 : ⌈r - 1⌉ = ⌈r⌉ - 1 := by
      rw [show (1 : ℚ) = ((1 : ℤ) : ℚ) by norm_num, Int.ceil_sub_int]
    rw [h3]
    omega

/-- The targets of the generated slots total at most
`⌈remaining⌉ * (peak slot size)`: each of the `⌈remaining⌉` passes targets at
most `actions_per_hour * 6 / 5` actions. -/
theorem genTimeSlotsAux_sum_le (aph : ℕ) (peak : List ℕ) :
    ∀ (fuel m : ℕ) (r : ℚ),
      ((genTimeSlotsAux aph peak fuel m r).map
        (fun s => s.target_actions)).sum ≤ ⌈r⌉.toNat * (aph * 6 / 5) := by
  intro fuel
  induction fuel with
  | zero => intro m r; simp [genTimeSlotsAux]
  | succ fuel ih =>
    intro m r
    by_cases hr : r > 0
    · simp only [genTimeSlotsAux, if_pos hr, List.map_cons, List.sum_cons]
      have htar : min (if (m / 60 % 24) ∈ peak then aph * 6 / 5
            else aph * 4 / 5) (⌊r * (aph : ℚ)⌋.toNat) ≤ aph * 6 / 5 := by
        refine le_trans (min_le_left _ _) ?_
        split_ifs
        · exact le_refl _
        · exact Nat.div_le_div_right (Nat.mul_le_mul_left aph (by norm_num))
      have hrec := ih (m + 60) (r - min 1 r)
      have hstep := ceil_remaining_step r hr
      calc min (if (m / 60 % 24) ∈ peak then aph * 6 / 5 else aph * 4 / 5)
            (⌊r * (aph : ℚ)⌋.toNat) +
            ((genTimeSlotsAux aph peak fuel (m + 60) (r - min 1 r)).map
              (fun s => s.target_actions)).sum
          ≤ aph * 6 / 5 + ⌈r - min 1 r⌉.toNat * (aph * 6 / 5) :=
            Nat.add_le_add htar hrec
        _ = (⌈r - min 1 r⌉.toNat + 1) * (aph * 6 / 5) := by ring
        _ ≤ ⌈r⌉.toNat * (aph * 6 / 5) := Nat.mul_le_mul_right _ hstep
    · simp [genTimeSlotsAux, hr]

/-! ## Helper lemmas: executor -/

/-- A unit whose single-action call always raises never advances progress:
the per-unit `except` swallows the failure and leaves the counter alone. -/
theorem run_slot_actions_const_false (account : Account) (group : String)
    (users : List String) (target p : ℕ) :
    run_slot_actions (fun _ _ _ => false) account group users target p = p := by
  rw [run_slot_actions]
  generalize List.range target = l
  induction l generalizing p with
  | nil => rfl
  | cons x xs ih =>
    rw [List.foldl_cons]
    cases h : users[x]? with
    | none => simpa [h] using ih p
    | some u => simpa [h] using ih p

/-- One allocation step leaves the pool untouched and issues exactly one
`get_best_account` call. -/
theorem addMembersStep_frame (exec : ActionExec) (now : ℚ) (group : String)
    (users : List String) (st : ℕ × List Account × ℕ)
    (d : AccountDistribution) :
    (addMembersStep exec now group users st d).2.1 = st.2.1 ∧
    (addMembersStep exec now group users st d).2.2 = st.2.2 + 1 := by
  rcases st with ⟨p, pl, sel⟩
  cases ho : get_best_account pl now <;>
    simp [addMembersStep, get_best_accountST, ho]

/-- Folding the allocation loop leaves the pool untouched and issues exactly
one `get_best_account` call per allocation. -/
theorem foldl_addMembersStep_frame (exec : ActionExec) (now : ℚ)
    (group : String) (users : List String) :
    ∀ (l : List AccountDistribution) (st : ℕ × List Account × ℕ),
      (l.foldl (addMembersStep exec now group users) st).2.1 = st.2.1 ∧
      (l.foldl (addMembersStep exec now group users) st).2.2 =
        st.2.2 + l.length := by
  intro l
  induction l with
  | nil => intro st; exact ⟨rfl, by simp⟩
  | cons d rest ih =>
    intro st
    rw [List.foldl_cons]
    have hstep := addMembersStep_frame exec now group users st d
    have hrec := ih (addMembersStep exec now group users st d)
    refine ⟨hrec.1.trans hstep.1, ?_⟩
    rw [hrec.2, hstep.2, List.length_cons]
    omega

/-- Folding the slot loop with an always-failing executor never advances
progress. -/
theorem slots_foldl_const_false (account : Account) (group : String)
    (users : List String) :
    ∀ (slots : List TimeSlot) (p : ℕ),
      slots.foldl (fun q time_slot =>
        run_slot_actions (fun _ _ _ => false) account group users
          time_slot.target_actions q) p = p := by
  intro slots
  induction slots with
  | nil => intro p; rfl
  | cons ts rest ih =>
    intro p
    rw [List.foldl_cons, run_slot_actions_const_false]
    exact ih p

/-- One allocation step with an always-failing executor never advances
progress. -/
theorem addMembersStep_const_false (now : ℚ) (group : String)
    (users : List String) (st : ℕ × List Account × ℕ)
    (d : AccountDistribution) :
    (addMembersStep (fun _ _ _ => false) now group users st d).1 = st.1 := by
  rcases st with ⟨p, pl, sel⟩
  cases ho : get_best_account pl now <;>
    simp [addMembersStep, get_best_accountST, ho, slots_foldl_const_false]

/-- The whole allocation loop with an always-failing executor never advances
progress. -/
theorem foldl_addMembersStep_const_false (now : ℚ) (group : String)
    (users : List String) :
    ∀ (l : List AccountDistribution) (st : ℕ × List Account × ℕ),
      (l.foldl (addMembersStep (fun _ _ _ => false) now group users) st).1 =
        st.1 := by
  intro l
  induction l with
  | nil => intro st; rfl
  | cons d rest ih =>
    intro st
    rw [List.foldl_cons]
    exact (ih _).trans (addMembersStep_const_false now group users st d)

/-! ## Claim theorems: Bulk Action Scheduler -/

/-- C1, counterexample: the one-user ADD_MEMBERS task produced by the
scheduler runs to COMPLETED with every unit succeeding, yet the pool's
aggregate `total_actions` is unchanged (0, not 0 + U with U = 1): the
executor never reports outcomes back to the rotator. -/
theorem add_members_no_report_counterexample :
    schedule_add_members onePool "grp" ["u1"] 10 "UTC" 0 = .ok oneUserTask ∧
    oneUserTask.total_actions = 1 ∧
    (execute_scheduled_task (fun _ _ _ => true) (fun _ _ => true) onePool 0
        oneUserTask).task.status = "COMPLETED" ∧
    (execute_scheduled_task (fun _ _ _ => true) (fun _ _ => true) onePool 0
        oneUserTask).task.progress = 1 ∧
    sumTotalActions
        (execute_scheduled_task (fun _ _ _ => true) (fun _ _ => true) onePool 0
          oneUserTask).pool = sumTotalActions onePool ∧
    sumTotalActions
        (execute_scheduled_task (fun _ _ _ => true) (fun _ _ => true) onePool 0
          oneUserTask).pool ≠
      sumTotalActions onePool + oneUserTask.total_actions := by
  exact ⟨oneUserTask_scheduled, rfl, rfl, rfl, rfl, by decide⟩

/-- C1 as amended: during execution of an ADD_MEMBERS task the executor
calls `selectBest` once per allocation — not once per unit — and never
reports any outcome back to the rotator: the pool, and with it every
`total_actions` counter, is unchanged by execution. -/
theorem add_members_never_reports (exec : ActionExec) (pool : List Account)
    (now : ℚ) (group : String) (users : List String)
    (distribution : List AccountDistribution) (progress : ℕ) :
    (_execute_add_members_task exec pool now group users distribution
        progress).2.1 = pool ∧
    (_execute_add_members_task exec pool now group users distribution
        progress).2.2 = distribution.length ∧
    sumTotalActions
        (_execute_add_members_task exec pool now group users distribution
          progress).2.1 = sumTotalActions pool := by
  have h := foldl_addMembersStep_frame exec now group users distribution
    (progress, pool, 0)
  exact ⟨h.1, h.2.trans (Nat.zero_add _), congrArg sumTotalActions h.1⟩

/-- C2, counterexample: on 25 users, 1 identity and an hourly budget of 10,
planned at 09:00 UTC (peak), the slot targets 12 + 12 + 5 = 29 exceed
`ceil(hoursNeeded * baseActionsPerHour) = ceil(2.5 * 10) = 25`. -/
theorem time_slot_overshoot_counterexample :
    _calculate_distribution 25 1 10 "UTC" 540 = .ok [peakAlloc] ∧
    (peakAlloc.time_slots.map (fun s => s.target_actions)).sum = 29 ∧
    ⌈peakAlloc.hours_needed * (peakAlloc.actions_per_hour : ℚ)⌉ = 25 ∧
    ¬ ((29 : ℤ) ≤ 25) := by
  refine ⟨calculate_distribution_peak_eq, rfl, ?_, by norm_num⟩
  have : ((5 : ℚ)/2) * ((10 : ℕ) : ℚ) = 25 := by norm_num
  rw [show peakAlloc.hours_needed = (5 : ℚ)/2 from rfl,
    show peakAlloc.actions_per_hour = 10 from rfl, this]
  exact Int.ceil_intCast 25

/-- C2 as amended: every slot of every allocation the planner produces lasts
at most one hour (and is nonempty), and the slot targets of an allocation
total at most `⌈hours_needed⌉ * floor(1.2 * actions_per_hour)`; the bound
`⌈hours_needed * actions_per_hour⌉` of the claim can be exceeded because a
peak slot targets 1.2× the hourly rate while the remaining-hours clamp only
subtracts elapsed time. -/
theorem time_slot_bounds (total n budget : ℕ) (tz : String) (nowMin : ℕ)
    (dist : List AccountDistribution)
    (h : _calculate_distribution total n budget tz nowMin = .ok dist) :
    ∀ d ∈ dist,
      (∀ s ∈ d.time_slots, 0 < s.duration_hours ∧ s.duration_hours ≤ 1) ∧
      (d.time_slots.map (fun s => s.target_actions)).sum ≤
        ⌈d.hours_needed⌉.toNat * (d.actions_per_hour * 6 / 5) := by
  intro d hd
  simp only [_calculate_distribution] at h
  split at h
  · split at h
    · exact absurd h (by simp)
    split at h
    · exact absurd h (by simp)
    · have hdist := Except.ok.inj h
      rw [← hdist] at hd
      obtain ⟨i, _, rfl⟩ := List.mem_map.mp hd
      refine ⟨fun s hs => genTimeSlotsAux_duration _ _ _ _ _ s hs,
        genTimeSlotsAux_sum_le _ _ _ _ _⟩
  · exact absurd h (by simp)

/-- Witness for the amended C2: the bound holds on the allocation
`peakAlloc` the planner produces for the 09:00-UTC peak workload. -/
theorem time_slot_bounds_witness :
    (∀ s ∈ peakAlloc.time_slots,
      0 < s.duration_hours ∧ s.duration_hours ≤ 1) ∧
    (peakAlloc.time_slots.map (fun s => s.target_actions)).sum ≤
      ⌈peakAlloc.hours_needed⌉.toNat * (peakAlloc.actions_per_hour * 6 / 5) :=
  time_slot_bounds 25 1 10 "UTC" 540 [peakAlloc]
    calculate_distribution_peak_eq peakAlloc (List.mem_singleton.mpr rfl)

/-- C3, counterexample: executing the scheduler's one-user task with an
always-failing single-action collaborator still reaches COMPLETED, but its
progress stays 0, not `total_actions = 1`: failed units do not advance
`progress`. -/
theorem always_fail_counterexample :
    schedule_add_members onePool "grp" ["u1"] 10 "UTC" 0 = .ok oneUserTask ∧
    oneUserTask.total_actions = 1 ∧
    (execute_scheduled_task (fun _ _ _ => false) (fun _ _ => true) onePool 0
        oneUserTask).task.status = "COMPLETED" ∧
    (execute_scheduled_task (fun _ _ _ => false) (fun _ _ => true) onePool 0
        oneUserTask).task.progress = 0 ∧
    (execute_scheduled_task (fun _ _ _ => false) (fun _ _ => true) onePool 0
        oneUserTask).task.progress ≠ oneUserTask.total_actions := by
  exact ⟨oneUserTask_scheduled, rfl, rfl, rfl, by decide⟩

/-- C3 as amended: executing a scheduled ADD_MEMBERS task whose
single-action collaborator fails on every unit still drives the task to
COMPLETED — per-unit failures never abort it — with `progress` unchanged at
0 (not `total_actions`) and zero outcomes reported to the rotator (the pool
and its counters are untouched). -/
theorem always_fail_completes (pool : List Account) (now : ℚ)
    (id group tz : String) (users : List String)
    (distribution : List AccountDistribution) (created : ℚ) (tot : ℕ) :
    (execute_scheduled_task (fun _ _ _ => false) (fun _ _ => true) pool now
        (mkAddMembersTask id group users distribution tz created
          tot)).task.status = "COMPLETED" ∧
    (execute_scheduled_task (fun _ _ _ => false) (fun _ _ => true) pool now
        (mkAddMembersTask id group users distribution tz created
          tot)).task.progress = 0 ∧
    (execute_scheduled_task (fun _ _ _ => false) (fun _ _ => true) pool now
        (mkAddMembersTask id group users distribution tz created
          tot)).pool = pool ∧
    sumTotalActions
        (execute_scheduled_task (fun _ _ _ => false) (fun _ _ => true) pool
          now (mkAddMembersTask id group users distribution tz created
            tot)).pool = sumTotalActions pool := by
  have hp := foldl_addMembersStep_const_false now group users distribution
    (0, pool, 0)
  have hf := foldl_addMembersStep_frame (fun _ _ _ => false) now group users
    distribution (0, pool, 0)
  exact ⟨rfl, hp, hf.1, congrArg sumTotalActions hf.1⟩

/-- C4, counterexample: scheduling over a pool whose only account is banned
(zero LIVE accounts) fails synchronously, but with the uncaught
`ZeroDivisionError` from `total_users // accounts_count`, not with a
dedicated NoCapacity error. -/
theorem schedule_no_live_counterexample :
    live_accounts bannedPool = 0 ∧
    schedule_add_members bannedPool "grp" ["u1", "u2"] 200 "UTC" 0 =
      .error .zeroDivisionError ∧
    schedule_add_members bannedPool "grp" ["u1", "u2"] 200 "UTC" 0 ≠
      .error .noCapacity := by
  refine ⟨rfl, rfl, fun hc => ?_⟩
  rw [show schedule_add_members bannedPool "grp" ["u1", "u2"] 200 "UTC" 0 =
    .error .zeroDivisionError from rfl] at hc
  exact PyError.noConfusion (Except.error.inj hc)

/-- C4 as amended: for a timezone pytz knows, scheduling an add-members
workload with zero LIVE accounts always fails synchronously with the
division-by-zero error (the code's de-facto realisation of "no capacity");
for a timezone pytz does not know, `pytz.timezone` raises
`UnknownTimeZoneError` first, before the capacity situation is even
examined. -/
theorem schedule_no_live_zero_division (accounts : List Account)
    (group : String) (users : List String) (aph : ℕ) (tz : String)
    (nowMin : ℕ) (h : live_accounts accounts = 0)
    (hv : tz ∈ pytz_known_timezones) :
    schedule_add_members accounts group users aph tz nowMin =
      .error .zeroDivisionError ∧
    ∀ tz' : String, tz' ∉ pytz_known_timezones →
      schedule_add_members accounts group users aph tz' nowMin =
        .error .unknownTimeZoneError := by
  constructor
  · simp [schedule_add_members, h, hv, _calculate_distribution]
  · intro tz' hv'
    simp [schedule_add_members, hv', _calculate_distribution]

/-- Witness for the amended C4: scheduling over the empty pool fails with
the division-by-zero error under a known timezone and with the
unknown-timezone error under an unknown one. -/
theorem schedule_no_live_zero_division_witness :
    schedule_add_members [] "grp" ["u"] 200 "UTC" 0 =
      .error .zeroDivisionError ∧
    schedule_add_members [] "grp" ["u"] 200 "Mars/Olympus" 0 =
      .error .unknownTimeZoneError :=
  ⟨(schedule_no_live_zero_division [] "grp" ["u"] 200 "UTC" 0 rfl
      (by decide)).1,
   (schedule_no_live_zero_division [] "grp" ["u"] 200 "UTC" 0 rfl
      (by decide)).2 "Mars/Olympus" (by decide)⟩

/-- C7: for `userCount ≥ 1`, `1 ≤ n ≤ userCount`, a timezone pytz knows and
an hourly budget covering the `n` identities (without the last two planning
raises — `UnknownTimeZoneError` resp. `ZeroDivisionError` — and no plan
exists), the plan has exactly `n` allocations, their user counts sum to
`userCount`, and allocation `i` receives `userCount / n` users plus one
extra exactly when `i < userCount % n`. -/
theorem distribution_partition (total n budget : ℕ) (tz : String)
    (nowMin : ℕ) (h1 : 1 ≤ n) (_h2 : n ≤ total) (h3 : n ≤ budget)
    (hv : tz ∈ pytz_known_timezones) :
    ∃ dist, _calculate_distribution total n budget tz nowMin = .ok dist ∧
      dist.length = n ∧
      (dist.map (fun d => d.users_count)).sum = total ∧
      ∀ i : Fin dist.length, (dist.get i).users_count =
        total / n + (if (i : ℕ) < total % n then 1 else 0) := by
  have hn : ¬ (n = 0) := by omega
  have happa : ¬ (budget / n = 0) := by
    have := Nat.div_pos h3 h1
    omega
  have hok : _calculate_distribution total n budget tz nowMin =
      .ok ((List.range n).map
        (accountAllocation total n budget nowMin (_get_peak_hours tz))) := by
    simp [_calculate_distribution, hv, hn, happa]
  refine ⟨_, hok, by simp, ?_, ?_⟩
  · rw [List.map_map]
    have hcomp : ((fun d => d.users_count) ∘
        accountAllocation total n budget nowMin (_get_peak_hours tz)) =
        fun i => total / n + (if i < total % n then 1 else 0) := rfl
    rw [hcomp, sum_users_counts n (total / n) (total % n),
      min_eq_left (Nat.mod_lt total h1).le, Nat.div_add_mod]
  · intro i
    rcases i with ⟨iv, hiv⟩
    simp [List.get_eq_getElem, List.getElem_map, List.getElem_range,
      accountAllocation_users_count]

/-- Witness for C7: 5 users across 2 identities with budget 4 give two
allocations of 3 and 2 users summing to 5. -/
theorem distribution_partition_witness :
    ∃ dist, _calculate_distribution 5 2 4 "UTC" 0 = .ok dist ∧
      dist.length = 2 ∧
      (dist.map (fun d => d.users_count)).sum = 5 ∧
      ∀ i : Fin dist.length, (dist.get i).users_count =
        5 / 2 + (if (i : ℕ) < 5 % 2 then 1 else 0) :=
  distribution_partition 5 2 4 "UTC" 0 (by decide) (by decide) (by decide)
    (by decide)

/-- C9: under a timezone pytz knows (on any other string
`schedule_bulk_scrape` raises `UnknownTimeZoneError` and creates nothing), a
bulk-scrape task can be created from an empty source list; it carries
`total_actions = 0`, every status query on it raises the division-by-zero
error from the percentage computation, and status is total whenever
`total_actions > 0`. -/
theorem empty_scrape_status_div_zero (aph : ℕ) (tz : String) (nowMin : ℕ)
    (h : aph ≠ 0) (hv : tz ∈ pytz_known_timezones) :
    ∃ t, schedule_bulk_scrape [] aph tz nowMin = .ok t ∧
      t.total_actions = 0 ∧
      get_task_status [t] t.id = .error .zeroDivisionError ∧
      ∀ t' : Task, t'.total_actions ≠ 0 →
        ∃ s, get_task_status [t'] t'.id = .ok (.snapshot s) := by
  have hd : _calculate_scrape_distribution [] aph tz nowMin = .ok [] := by
    simp [_calculate_scrape_distribution, h, hv]
  refine ⟨{ id := "bulk_scrape_task", payload := .bulkScrape [] [],
            timezone := tz, created_at := (nowMin : ℚ), status := "SCHEDULED",
            progress := 0, total_actions := 0 }, ?_, rfl, rfl, ?_⟩
  · simp [schedule_bulk_scrape, hd]
  · intro t' h'
    refine ⟨{ id := t'.id, status := t'.status, progress := t'.progress,
              total_actions := t'.total_actions,
              progress_percentage :=
                ((t'.progress : ℚ) / (t'.total_actions : ℚ)) * 100,
              error := t'.error }, ?_⟩
    simp [get_task_status, _get_task, List.find?, h']

/-- Witness for C9 at the default scrape budget 100. -/
theorem empty_scrape_status_div_zero_witness :
    ∃ t, schedule_bulk_scrape ([] : List String) 100 "UTC" 0 = .ok t ∧
      t.total_actions = 0 ∧
      get_task_status [t] t.id = .error .zeroDivisionError ∧
      ∀ t' : Task, t'.total_actions ≠ 0 →
        ∃ s, get_task_status [t'] t'.id = .ok (.snapshot s) :=
  empty_scrape_status_div_zero 100 "UTC" 0 (by decide) (by decide)

end Teleman
